import Mathlib

/-!
# Verification of the nomadex-web-legacy helper layer

A shallow embedding of the repository, three source files:

* `src/packages/algokit-utils/types/app-deploy.d.ts` — declarations (with
  documentation) of the app-deployment helpers: `deployApp`,
  `isSchemaIsBroken`, `getAppDeploymentTransactionNote`,
  `replaceDeployTimeControlParams`, and friends.  The file ships only the
  TypeScript declarations; the implementations are not part of the shipped
  sources, so those operations are modelled from the specification
  (each such definition is marked `Modelled from the spec:`).
* `src/packages/algokit-utils/esm/types/dispenser-client.js` — the full
  implementation of `TestNetDispenserApiClient`, embedded here directly.
* `src/unnamed/part_000` — the `DeflyWalletConnectModal` custom element,
  embedded here directly; its imported utility
  `removeModalWrapperFromDOM` is not in the sources and is modelled as an
  abstract DOM effect.

Strings from the JavaScript side are embedded as `List Char` where parsers
walk them character by character, and as `String` where only equality
matters.  JavaScript truthiness of a possibly-absent string (`undefined`
and `""` are falsy) is made explicit as `jsTruthyStr`.
-/

namespace NomadexLegacy

/-! ## Application state schemas and the schema-break detector -/

/-- The two resource counts of an Algorand application state schema
(`algosdk.modelsv2.ApplicationStateSchema`): integer slots and
byte-slice slots. -/
structure ApplicationStateSchema where
  numUint : Nat
  numByteSlice : Nat
deriving DecidableEq

/-- Modelled from the spec: the implementation of `isSchemaIsBroken` is not
under the shipped sources (only its declaration in `app-deploy.d.ts`).
Spec 4.2 and the declaration doc: return true iff any resource count of the
`after` schema exceeds the corresponding count of the `before` schema. -/
def isSchemaIsBroken (before after : ApplicationStateSchema) : Bool :=
  decide (before.numUint < after.numUint) ||
    decide (before.numByteSlice < after.numByteSlice)

/-- C2: `isSchemaIsBroken before after` is true iff the after schema grew in
either category; in particular it is false on equal or shrunken schemas. -/
theorem isSchemaIsBroken_iff (before after : ApplicationStateSchema) :
    isSchemaIsBroken before after = true ↔
      (before.numUint < after.numUint ∨ before.numByteSlice < after.numByteSlice) := by
  simp [isSchemaIsBroken]

/-! ## The deployment-note codec

`getAppDeploymentTransactionNote` (declared in `app-deploy.d.ts`) builds
the ARC-2 style transaction note for an app deployment; the matching parse
lives inside `getCreatorAppsByName`.  Neither implementation is under the
shipped sources, so the codec is modelled from spec 4.3: encode emits a
fixed tag followed by a structured-text serialization of the metadata
fields; decode returns `none` (never an error) when the tag is absent or
the payload does not parse. -/

/-- The deploy-time metadata attached to an app deployment
(`AppDeployMetadata` in the data model): logical name, version, and the
optional updatability / deletability controls. -/
structure AppDeployMetadata where
  name : List Char
  version : List Char
  updatable : Option Bool
  deletable : Option Bool
deriving DecidableEq

/-- The fixed tag opening every deployment note (the constant `dAppName`
prefix of the ARC-2 note). -/
def APP_DEPLOY_NOTE_TAG : List Char := "ALGOKIT_DEPLOYER:j".toList

/-- One field of the structured-text payload: the backslash escapes itself
and the field separator bar, so arbitrary name/version strings survive. -/
def escapeField : List Char → List Char
  | [] => []
  | c :: cs =>
    if c = '\\' ∨ c = '|' then '\\' :: c :: escapeField cs
    else c :: escapeField cs

/-- Read one field up to its unescaped terminating bar, undoing the
escapes; `none` when the input ends before the terminator. -/
def parseField : List Char → Option (List Char × List Char)
  | [] => none
  | c :: cs =>
    if c = '\\' then
      match cs with
      | [] => none
      | d :: ds => (parseField ds).map fun p => (d :: p.1, p.2)
    else if c = '|' then some ([], cs)
    else (parseField cs).map fun p => (c :: p.1, p.2)

/-- Serialization of an optional control flag: absent / true / false. -/
def encodeControlFlag : Option Bool → List Char
  | none => ['n']
  | some true => ['t']
  | some false => ['f']

/-- Parse of an optional control flag; anything else fails. -/
def parseControlFlag : List Char → Option (Option Bool)
  | ['n'] => some none
  | ['t'] => some (some true)
  | ['f'] => some (some false)
  | _ => none

/-- Modelled from the spec: the implementation of
`getAppDeploymentTransactionNote` is not under the shipped sources (only
its declaration).  Spec 4.3: emit the fixed tag followed by a canonical
structured-text serialization of the metadata fields. -/
def getAppDeploymentTransactionNote (m : AppDeployMetadata) : List Char :=
  APP_DEPLOY_NOTE_TAG ++
    escapeField m.name ++ '|' ::
    escapeField m.version ++ '|' ::
    encodeControlFlag m.updatable ++ '|' ::
    encodeControlFlag m.deletable ++ ['|']

/-- Consume an expected literal head from the input, or fail: how the
decoder checks for the fixed note tag. -/
def consumeTag : List Char → List Char → Option (List Char)
  | [], s => some s
  | _ :: _, [] => none
  | t :: ts, c :: cs => if t = c then consumeTag ts cs else none

/-- Modelled from the spec: the note parse inside `getCreatorAppsByName` is
not under the shipped sources.  Spec 4.3: `decode` strips the tag and
parses the four fields, returning `none` when the tag is absent, a field
fails to parse, or trailing bytes remain. -/
def parseAppDeploymentTransactionNote (bs : List Char) : Option AppDeployMetadata :=
  match consumeTag APP_DEPLOY_NOTE_TAG bs with
  | none => none
  | some r0 =>
    match parseField r0 with
    | none => none
    | some (name, r1) =>
      match parseField r1 with
      | none => none
      | some (version, r2) =>
        match parseField r2 with
        | none => none
        | some (u, r3) =>
          match parseField r3 with
          | none => none
          | some (d, r4) =>
            if r4 = [] then
              match parseControlFlag u, parseControlFlag d with
              | some ub, some db => some ⟨name, version, ub, db⟩
              | _, _ => none
            else none

/-- The parse of a field stops at a bare separator. -/
theorem parseField_bar (rest : List Char) : parseField ('|' :: rest) = some ([], rest) := by
  rw [parseField.eq_def]
  simp

/-- The parse of a field takes the character after a backslash literally. -/
theorem parseField_esc (d : Char) (rest : List Char) :
    parseField ('\\' :: d :: rest) = (parseField rest).map fun p => (d :: p.1, p.2) := by
  rw [parseField.eq_def]
  simp

/-- The parse of a field keeps an ordinary character and continues. -/
theorem parseField_plain (c : Char) (rest : List Char) (h1 : c ≠ '\\') (h2 : c ≠ '|') :
    parseField (c :: rest) = (parseField rest).map fun p => (c :: p.1, p.2) := by
  rw [parseField.eq_def]
  simp [h1, h2]

/-- Escaping then parsing a field recovers it and hands back the rest. -/
theorem parseField_escapeField (s rest : List Char) :
    parseField (escapeField s ++ '|' :: rest) = some (s, rest) := by
  induction s with
  | nil => simp [escapeField, parseField_bar]
  | cons c cs ih =>
    by_cases hc : c = '\\' ∨ c = '|'
    · simp [escapeField, hc, parseField_esc, ih]
    · push_neg at hc
      simp [escapeField, hc.1, hc.2, parseField_plain c _ hc.1 hc.2, ih]

/-- Consuming a tag off a tagged payload yields the payload. -/
theorem consumeTag_append (t s : List Char) : consumeTag t (t ++ s) = some s := by
  induction t with
  | nil => simp [consumeTag]
  | cons c cs ih => simp [consumeTag, ih]

/-- Control flags round-trip. -/
theorem parseField_encodeControlFlag (b : Option Bool) (rest : List Char) :
    parseField (encodeControlFlag b ++ '|' :: rest) = some (encodeControlFlag b, rest) := by
  rcases b with _ | b
  · simp [encodeControlFlag, parseField_plain 'n' _ (by decide) (by decide), parseField_bar]
  · rcases b
    · simp [encodeControlFlag, parseField_plain 'f' _ (by decide) (by decide), parseField_bar]
    · simp [encodeControlFlag, parseField_plain 't' _ (by decide) (by decide), parseField_bar]

/-- Parsing the serialized control flag recovers the flag. -/
theorem parseControlFlag_encodeControlFlag (b : Option Bool) :
    parseControlFlag (encodeControlFlag b) = some b := by
  rcases b with _ | b
  · rfl
  · rcases b <;> rfl

/-- C3: decoding the deployment note produced by encoding any valid
metadata yields the metadata again. -/
theorem decode_encode_roundtrip (m : AppDeployMetadata) :
    parseAppDeploymentTransactionNote (getAppDeploymentTransactionNote m) = some m := by
  simp [getAppDeploymentTransactionNote, parseAppDeploymentTransactionNote,
    consumeTag_append, parseField_escapeField, parseField_encodeControlFlag,
    parseControlFlag_encodeControlFlag]

/-- C4: the deployment-note decode is total and safe: on every input byte
sequence it returns either null or some metadata value, never an error. -/
theorem decode_total (bs : List Char) :
    parseAppDeploymentTransactionNote bs = none ∨
      ∃ m, parseAppDeploymentTransactionNote bs = some m := by
  cases h : parseAppDeploymentTransactionNote bs with
  | none => exact Or.inl rfl
  | some m => exact Or.inr ⟨m, rfl⟩

/-! ## Deploy-time template substitution -/

/-- The placeholder token controlling updatability. -/
def UPDATABLE_TEMPLATE_NAME : List Char := "TMPL_UPDATABLE".toList

/-- The placeholder token controlling deletability. -/
def DELETABLE_TEMPLATE_NAME : List Char := "TMPL_DELETABLE".toList

/-- Whether the token occurs as a contiguous substring of the code. -/
def containsToken (pat : List Char) : List Char → Bool
  | [] => List.isPrefixOf pat []
  | c :: cs => List.isPrefixOf pat (c :: cs) || containsToken pat cs

/-- Replace every occurrence of the token with the replacement text,
scanning left to right. -/
def substituteToken (pat repl : List Char) : List Char → List Char
  | [] => []
  | c :: cs =>
    if List.isPrefixOf pat (c :: cs) then
      repl ++ substituteToken pat repl (List.drop (pat.length - 1) cs)
    else
      c :: substituteToken pat repl cs
termination_by l => l.length
decreasing_by
  · simp only [List.length_drop, List.length_cons]
    omega
  · simp only [List.length_cons]
    omega

/-- The textual form a boolean control value is substituted as (a TEAL
integer). -/
def boolTealValue (b : Bool) : List Char := if b then "1".toList else "0".toList

/-- Apply one optional control parameter to the code: absent parameters are
left untouched, present ones substitute their token. -/
def applyControlParam (v : Option Bool) (pat : List Char) (code : List Char) : List Char :=
  match v with
  | none => code
  | some b => substituteToken pat (boolTealValue b) code

/-- Modelled from the spec: the implementation of
`replaceDeployTimeControlParams` is not under the shipped sources (only
its declaration).  Spec 4.1 and the declaration doc: a control parameter
with an explicit boolean value whose `TMPL_*` token is absent from the
TEAL code is an inconsistent-template error; otherwise every occurrence of
each present token is replaced with the textual form of its value. -/
def replaceDeployTimeControlParams (tealCode : List Char) (updatable deletable : Option Bool) :
    Except String (List Char) :=
  if updatable.isSome && !containsToken UPDATABLE_TEMPLATE_NAME tealCode then
    Except.error "Deploy time updatability control requested for app deployment, but TMPL_UPDATABLE not present in TEAL code"
  else if deletable.isSome && !containsToken DELETABLE_TEMPLATE_NAME tealCode then
    Except.error "Deploy time deletability control requested for app deployment, but TMPL_DELETABLE not present in TEAL code"
  else
    Except.ok
      (applyControlParam deletable DELETABLE_TEMPLATE_NAME
        (applyControlParam updatable UPDATABLE_TEMPLATE_NAME tealCode))

/-- C5: an explicit boolean control parameter whose placeholder token does
not occur in the source makes `replaceDeployTimeControlParams` return the
inconsistent-template error rather than substituted source. -/
theorem replaceDeployTimeControlParams_missing_token (tealCode : List Char)
    (updatable deletable : Option Bool) (b : Bool)
    (h : (updatable = some b ∧ containsToken UPDATABLE_TEMPLATE_NAME tealCode = false) ∨
      (deletable = some b ∧ containsToken DELETABLE_TEMPLATE_NAME tealCode = false)) :
    ∃ e, replaceDeployTimeControlParams tealCode updatable deletable = Except.error e := by
  rcases h with ⟨hu, hc⟩ | ⟨hd, hc⟩
  · refine ⟨"Deploy time updatability control requested for app deployment, but TMPL_UPDATABLE not present in TEAL code", ?_⟩
    simp [replaceDeployTimeControlParams, hu, hc]
  · cases h1 : (updatable.isSome && !containsToken UPDATABLE_TEMPLATE_NAME tealCode) with
    | true =>
      refine ⟨"Deploy time updatability control requested for app deployment, but TMPL_UPDATABLE not present in TEAL code", ?_⟩
      simp [replaceDeployTimeControlParams, h1]
    | false =>
      refine ⟨"Deploy time deletability control requested for app deployment, but TMPL_DELETABLE not present in TEAL code", ?_⟩
      simp [replaceDeployTimeControlParams, h1, hd, hc]

/-- Witness for C5 at a concrete input: requesting updatability control on
code without the `TMPL_UPDATABLE` token yields an error. -/
theorem replaceDeployTimeControlParams_missing_token_witness :
    ∃ e, replaceDeployTimeControlParams "int 1".toList (some true) none = Except.error e :=
  replaceDeployTimeControlParams_missing_token "int 1".toList (some true) none true
    (Or.inl ⟨rfl, by decide⟩)

/-! ## The deploy orchestrator

`deployApp` is declared in `app-deploy.d.ts` but its implementation is not
under the shipped sources, so the decision procedure is modelled from
spec 4.5: look up the existing app by name, branch on schema break /
code-or-metadata change under the `onSchemaBreak` and `onUpdate` policies,
and record exactly which transactions the branch submits. -/

/-- The `onSchemaBreak` policy of an app deployment. -/
inductive OnSchemaBreak where
  | fail
  | replace
  | append
deriving DecidableEq

/-- The `onUpdate` policy of an app deployment. -/
inductive OnUpdate where
  | fail
  | update
  | replace
  | append
deriving DecidableEq

/-- The kinds of application transactions the orchestrator can submit. -/
inductive AppTxn where
  | createTxn
  | updateTxn (appId : Nat)
  | deleteTxn (appId : Nat)
deriving DecidableEq

/-- The `operationPerformed` discriminator of a `deployApp` result. -/
inductive OperationPerformed where
  | create
  | update
  | replace
  | nothing
deriving DecidableEq

/-- The resolved on-chain state of one deployed app, as held in an
`AppLookup` entry: app id, deployed program bytes, the state schema fixed
at creation, and the deploy metadata recorded in the creation note. -/
structure AppMetadata where
  appId : Nat
  approvalProgram : List Nat
  schema : ApplicationStateSchema
  meta : AppDeployMetadata
deriving DecidableEq

/-- What one `deployApp` invocation did: every transaction it submitted,
in order, and either a fatal error or the operation performed together
with the resulting app metadata. -/
structure DeployOutcome where
  txns : List AppTxn
  result : Except String (OperationPerformed × AppMetadata)

/-- Modelled from the spec: the implementation of `deployApp` is not under
the shipped sources (only its declaration).  Spec 4.5 decision procedure:

1. no existing app for the name → create;
2. existing app, schema grew → branch on `onSchemaBreak`: fail is a
   terminal error with nothing submitted, append creates alongside,
   replace deletes the old app then creates the new one;
3. existing app, schema did not grow, identical program and metadata
   (version and control flags) → nothing, no transaction submitted, the
   existing metadata returned as is;
4. otherwise → branch on `onUpdate`: fail is a terminal error with
   nothing submitted, update submits an update against the existing app id
   (the schema stays the one fixed at creation), replace deletes then
   creates, append creates alongside.

`lookup` is the caller-supplied or freshly built `AppLookup`; `freshAppId`
is the id the chain assigns to a newly created app. -/
def deployApp (lookup : List Char → Option AppMetadata) (meta : AppDeployMetadata)
    (approvalProgram : List Nat) (schema : ApplicationStateSchema)
    (onSchemaBreak : OnSchemaBreak) (onUpdate : OnUpdate) (freshAppId : Nat) :
    DeployOutcome :=
  match lookup meta.name with
  | none =>
    ⟨[AppTxn.createTxn],
      Except.ok (OperationPerformed.create, ⟨freshAppId, approvalProgram, schema, meta⟩)⟩
  | some existing =>
    if isSchemaIsBroken existing.schema schema then
      match onSchemaBreak with
      | OnSchemaBreak.fail =>
        ⟨[], Except.error "Schema break detected and onSchemaBreak=fail"⟩
      | OnSchemaBreak.append =>
        ⟨[AppTxn.createTxn],
          Except.ok (OperationPerformed.create, ⟨freshAppId, approvalProgram, schema, meta⟩)⟩
      | OnSchemaBreak.replace =>
        ⟨[AppTxn.deleteTxn existing.appId, AppTxn.createTxn],
          Except.ok (OperationPerformed.replace, ⟨freshAppId, approvalProgram, schema, meta⟩)⟩
    else if approvalProgram = existing.approvalProgram ∧
        meta.version = existing.meta.version ∧
        meta.updatable = existing.meta.updatable ∧
        meta.deletable = existing.meta.deletable then
      ⟨[], Except.ok (OperationPerformed.nothing, existing)⟩
    else
      match onUpdate with
      | OnUpdate.fail =>
        ⟨[], Except.error "App was updated and onUpdate=fail"⟩
      | OnUpdate.update =>
        ⟨[AppTxn.updateTxn existing.appId],
          Except.ok (OperationPerformed.update,
            ⟨existing.appId, approvalProgram, existing.schema, meta⟩)⟩
      | OnUpdate.replace =>
        ⟨[AppTxn.deleteTxn existing.appId, AppTxn.createTxn],
          Except.ok (OperationPerformed.replace, ⟨freshAppId, approvalProgram, schema, meta⟩)⟩
      | OnUpdate.append =>
        ⟨[AppTxn.createTxn],
          Except.ok (OperationPerformed.create, ⟨freshAppId, approvalProgram, schema, meta⟩)⟩

/-- The lookup after a deploy that resolved the name to `app`: the entry
for that name now holds `app`, every other name is untouched.  This is the
fresh, non-stale `AppLookup` the idempotence guarantee requires. -/
def refreshLookup (lookup : List Char → Option AppMetadata) (name : List Char)
    (app : AppMetadata) : List Char → Option AppMetadata :=
  fun n => if n = name then some app else lookup n

/-- C1: with `onUpdate = update` and `onSchemaBreak = replace`, a first
`deployApp` succeeds with some operation, and repeating it with the same
inputs against the fresh (non-stale) lookup reflecting that result
performs `nothing` and submits no transactions. -/
theorem deployApp_idempotent (lookup : List Char → Option AppMetadata)
    (meta : AppDeployMetadata) (prog : List Nat) (schema : ApplicationStateSchema)
    (id1 id2 : Nat) :
    ∃ op app,
      (deployApp lookup meta prog schema OnSchemaBreak.replace OnUpdate.update id1).result
        = Except.ok (op, app) ∧
      deployApp (refreshLookup lookup meta.name app) meta prog schema
          OnSchemaBreak.replace OnUpdate.update id2
        = ⟨[], Except.ok (OperationPerformed.nothing, app)⟩ := by
  cases hl : lookup meta.name with
  | none =>
    refine ⟨OperationPerformed.create, ⟨id1, prog, schema, meta⟩, ?_, ?_⟩
    · simp [deployApp, hl]
    · simp [deployApp, refreshLookup, isSchemaIsBroken]
  | some ex =>
    by_cases hb : isSchemaIsBroken ex.schema schema = true
    · refine ⟨OperationPerformed.replace, ⟨id1, prog, schema, meta⟩, ?_, ?_⟩
      · simp [deployApp, hl, hb]
      · simp [deployApp, refreshLookup, isSchemaIsBroken]
    · rw [Bool.not_eq_true] at hb
      by_cases hc : prog = ex.approvalProgram ∧ meta.version = ex.meta.version ∧
        meta.updatable = ex.meta.updatable ∧ meta.deletable = ex.meta.deletable
      · refine ⟨OperationPerformed.nothing, ex, ?_, ?_⟩
        · simp [deployApp, hl, hb, hc]
        · simp [deployApp, refreshLookup, hb, hc]
      · refine ⟨OperationPerformed.update, ⟨ex.appId, prog, ex.schema, meta⟩, ?_, ?_⟩
        · simp [deployApp, hl, hb, hc]
        · simp [deployApp, refreshLookup, hb]

/-- C8: an existing app whose schema grew under `onSchemaBreak = fail`
makes `deployApp` terminate with a fatal error and submit zero
transactions. -/
theorem deployApp_schemaBreak_fail (lookup : List Char → Option AppMetadata)
    (meta : AppDeployMetadata) (prog : List Nat) (schema : ApplicationStateSchema)
    (onUpdate : OnUpdate) (freshAppId : Nat) (ex : AppMetadata)
    (hl : lookup meta.name = some ex)
    (hb : isSchemaIsBroken ex.schema schema = true) :
    deployApp lookup meta prog schema OnSchemaBreak.fail onUpdate freshAppId
      = ⟨[], Except.error "Schema break detected and onSchemaBreak=fail"⟩ := by
  simp [deployApp, hl, hb]

/-- Witness for C8 at a concrete input: an existing one-slot app asked to
grow to two integer slots under the fail policy errors with no
transactions. -/
theorem deployApp_schemaBreak_fail_witness :
    deployApp (fun _ => some ⟨7, [1], ⟨1, 1⟩, ⟨"counter".toList, "1".toList, none, none⟩⟩)
        ⟨"counter".toList, "1".toList, none, none⟩ [1] ⟨2, 1⟩
        OnSchemaBreak.fail OnUpdate.update 8
      = ⟨[], Except.error "Schema break detected and onSchemaBreak=fail"⟩ :=
  deployApp_schemaBreak_fail _ _ _ _ _ _ _ rfl (by decide)

/-! ## The TestNet dispenser client

Embedded from `dispenser-client.js`, which ships its full implementation.
JavaScript truthiness is explicit: `undefined` and the empty string are
falsy, so `if (params?.authToken)` passes only a present, nonempty
token. -/

/-- The default request timeout, seconds (`dispenserRequestTimeout`). -/
def dispenserRequestTimeout : Nat := 15

/-- JS truthiness of a possibly-absent string: `undefined` and `""` are
falsy, everything else truthy. -/
def jsTruthyStr : Option String → Bool
  | none => false
  | some s => !(s == "")

/-- The optional constructor parameters object. -/
structure DispenserClientParams where
  authToken : Option String
  requestTimeout : Option Nat
deriving DecidableEq

/-- A constructed client: `_authToken` and `_requestTimeout`. -/
structure TestNetDispenserApiClient where
  authToken : String
  requestTimeout : Nat
deriving DecidableEq

/-- `params?.requestTimeout || dispenserRequestTimeout`: an absent or zero
(falsy) timeout falls back to the default. -/
def resolveRequestTimeout (params : Option DispenserClientParams) : Nat :=
  match params.bind fun p => p.requestTimeout with
  | some n => if n = 0 then dispenserRequestTimeout else n
  | none => dispenserRequestTimeout

/-- Embedded from the `TestNetDispenserApiClient` constructor
(dispenser-client.js 44-56): prefer a truthy explicit `params.authToken`,
fall back to a truthy `ALGOKIT_DISPENSER_ACCESS_TOKEN` environment value
(`envToken`), and throw when neither is truthy. -/
def mkTestNetDispenserApiClient (params : Option DispenserClientParams)
    (envToken : Option String) : Except String TestNetDispenserApiClient :=
  let pTok := params.bind fun p => p.authToken
  if jsTruthyStr pTok then
    Except.ok ⟨pTok.getD "", resolveRequestTimeout params⟩
  else if jsTruthyStr envToken then
    Except.ok ⟨envToken.getD "", resolveRequestTimeout params⟩
  else
    Except.error "Cannot init AlgoKit TestNet Dispenser API client because neither environment variable ALGOKIT_DISPENSER_ACCESS_TOKEN or the authToken were provided."

/-- C6: construction with no explicit token and the environment variable
unset throws; a present nonempty token from either source makes
construction succeed with `authToken` set to that token. -/
theorem mkTestNetDispenserApiClient_auth (params : Option DispenserClientParams)
    (envToken : Option String) :
    ((params.bind fun p => p.authToken) = none → envToken = none →
      ∃ e, mkTestNetDispenserApiClient params envToken = Except.error e) ∧
    (∀ t, (params.bind fun p => p.authToken) = some t → t ≠ "" →
      ∃ c, mkTestNetDispenserApiClient params envToken = Except.ok c ∧ c.authToken = t) ∧
    (∀ t, jsTruthyStr (params.bind fun p => p.authToken) = false → envToken = some t → t ≠ "" →
      ∃ c, mkTestNetDispenserApiClient params envToken = Except.ok c ∧ c.authToken = t) := by
  refine ⟨?_, ?_, ?_⟩
  · intro hp he
    refine ⟨"Cannot init AlgoKit TestNet Dispenser API client because neither environment variable ALGOKIT_DISPENSER_ACCESS_TOKEN or the authToken were provided.", ?_⟩
    simp [mkTestNetDispenserApiClient, hp, he, jsTruthyStr]
  · intro t ht hne
    refine ⟨⟨t, resolveRequestTimeout params⟩, ?_, rfl⟩
    simp [mkTestNetDispenserApiClient, ht, jsTruthyStr, hne]
  · intro t hfalse he hne
    refine ⟨⟨t, resolveRequestTimeout params⟩, ?_, rfl⟩
    simp only [mkTestNetDispenserApiClient, hfalse, he]
    simp [jsTruthyStr, hne]

/-- Witness for C6 at a concrete input: no parameters object and the
environment variable unset yields the construction error. -/
theorem mkTestNetDispenserApiClient_auth_witness :
    ∃ e, mkTestNetDispenserApiClient none none = Except.error e :=
  (mkTestNetDispenserApiClient_auth none none).1 rfl rfl

/-- C10: when both an explicit nonempty token and an environment value are
present, construction uses the explicit token and ignores the
environment. -/
theorem mkTestNetDispenserApiClient_explicit_wins (p : DispenserClientParams)
    (envToken : Option String) (t u : String)
    (hp : p.authToken = some t) (ht : t ≠ "") (_he : envToken = some u) :
    ∃ c, mkTestNetDispenserApiClient (some p) envToken = Except.ok c ∧ c.authToken = t := by
  refine ⟨⟨t, resolveRequestTimeout (some p)⟩, ?_, rfl⟩
  simp [mkTestNetDispenserApiClient, hp, jsTruthyStr, ht]

/-- Witness for C10 at a concrete input: explicit token beats the set
environment variable. -/
theorem mkTestNetDispenserApiClient_explicit_wins_witness :
    ∃ c, mkTestNetDispenserApiClient (some ⟨some "secret", none⟩) (some "envtok")
        = Except.ok c ∧ c.authToken = "secret" :=
  mkTestNetDispenserApiClient_explicit_wins ⟨some "secret", none⟩ (some "envtok")
    "secret" "envtok" rfl (by decide) rfl

/-! ### The shared request helper and its 400-body double read -/

/-- What the JSON error body of a failed dispenser response parses to:
optional `code` and `message` fields. -/
structure DispenserErrorBody where
  code : Option String
  message : Option String
deriving DecidableEq

/-- An HTTP response as `processDispenserRequest` observes it: the `ok`
flag, the status, and what one read of the body parses to (`none` when the
body text is not valid JSON). -/
structure HttpResponse where
  ok : Bool
  status : Nat
  jsonBody : Option DispenserErrorBody
deriving DecidableEq

/-- What a failed `processDispenserRequest` throws: an `Error` built from
a message, or the `TypeError` produced by reading an already-consumed
response body a second time. -/
inductive DispenserRequestError where
  | apiError (message : String)
  | bodyUnusable
deriving DecidableEq

/-- Truthiness of `error_response && error_response.code`. -/
def jsTruthyCode : Option DispenserErrorBody → Bool
  | none => false
  | some b => jsTruthyStr b.code

/-- Embedded from `processDispenserRequest` (dispenser-client.js 84-100),
error path only.  On a non-ok response the helper reads the body once with
`response.json()` (a parse failure is suppressed); if the parsed body has
a truthy `code`, that code is thrown; otherwise, when the status is 400,
the helper calls `response.json()` a second time — a fetch body is a
single-read stream, so the second read rejects with a body-unusable
`TypeError` regardless of the body text; otherwise the raw-status fallback
message is thrown. -/
def processDispenserRequestOutcome (resp : HttpResponse) : Except DispenserRequestError Unit :=
  if resp.ok then Except.ok ()
  else if jsTruthyCode resp.jsonBody then
    Except.error (DispenserRequestError.apiError ((resp.jsonBody.bind fun b => b.code).getD ""))
  else if resp.status = 400 then
    Except.error DispenserRequestError.bodyUnusable
  else
    Except.error (DispenserRequestError.apiError
      ("Error processing dispenser API request: " ++ toString resp.status))

/-- C7, the divergence: a non-ok 400 response whose JSON body lacks a
`code` field does not surface the raw-HTTP-status fallback message — the
helper rereads the consumed body and throws the body-unusable error
instead. -/
theorem processDispenserRequest_400_fallback_bug :
    processDispenserRequestOutcome ⟨false, 400, some ⟨none, some "Bad Request"⟩⟩
      = Except.error DispenserRequestError.bodyUnusable ∧
    processDispenserRequestOutcome ⟨false, 400, some ⟨none, some "Bad Request"⟩⟩
      ≠ Except.error (DispenserRequestError.apiError
          ("Error processing dispenser API request: " ++ toString 400)) := by
  refine ⟨rfl, ?_⟩
  simp [processDispenserRequestOutcome, jsTruthyCode, jsTruthyStr]

/-! ## The Defly wallet-connect modal

Embedded from `src/unnamed/part_000`, which ships the custom element. -/

/-- Modelled from the spec: the modal id constant is imported from
`deflyWalletConnectModalUtils`, which is not under the shipped sources;
only its propagation to the click handler matters. -/
def DEFLY_WALLET_CONNECT_MODAL_ID : String := "defly-wallet-connect-modal"

/-- The DOM effects the modal can perform.  `removeModalWrapper` stands
for the imported `removeModalWrapperFromDOM`, modelled from the spec as
removing the modal wrapper from the visible tree. -/
inductive DomEffect where
  | removeModalWrapper (modalId : String)
deriving DecidableEq

/-- The constructed modal: the header carries the modal id, the desktop
body carries the uri attribute, and the open shadow root carries the
registered click-listener effects. -/
structure DeflyWalletConnectModal where
  headerModalId : String
  desktopModeUri : String
  shadowRootClickEffects : List DomEffect
deriving DecidableEq

/-- Embedded from the `DeflyWalletConnectModal` constructor: attach an
open shadow root, render header and desktop body (the JS template
interpolates a missing `uri` attribute as the string form of `null`), and
register one click listener on the shadow root whose handler calls
`removeModalWrapperFromDOM(DEFLY_WALLET_CONNECT_MODAL_ID)`. -/
def mkDeflyWalletConnectModal (uriAttribute : Option String) : DeflyWalletConnectModal :=
  ⟨DEFLY_WALLET_CONNECT_MODAL_ID,
    (match uriAttribute with
      | some u => u
      | none => "null"),
    [DomEffect.removeModalWrapper DEFLY_WALLET_CONNECT_MODAL_ID]⟩

/-- A click dispatched to any target path inside the shadow boundary
bubbles to the shadow root (nothing in the source stops propagation), so
the effects performed are exactly those of the shadow-root listeners. -/
def dispatchClickInShadow (modal : DeflyWalletConnectModal)
    (_targetPath : List String) : List DomEffect :=
  modal.shadowRootClickEffects

/-- C9: every click inside the modal shadow boundary, whatever its
target, performs the removal of the modal wrapper from the DOM. -/
theorem modal_click_removes_wrapper (uriAttribute : Option String)
    (targetPath : List String) :
    DomEffect.removeModalWrapper DEFLY_WALLET_CONNECT_MODAL_ID ∈
      dispatchClickInShadow (mkDeflyWalletConnectModal uriAttribute) targetPath := by
  simp [dispatchClickInShadow, mkDeflyWalletConnectModal]

end NomadexLegacy
